import Mathlib

/-!
# Seeding script `backend/services/scripts/seed.js`

A shallow embedding of the seeding script: the records it builds, the two
generation loops, the connection life cycle and the guarded region of
`seedDatabase`, followed by the properties proved about them.

Conventions of the embedding.

* The script talks to three outside parties: the database client (mongoose and
  the two models), `bcrypt`, and the random generators (`faker`, `Math.random`).
  All of them are gathered in an environment `Env`: which outside call throws
  (and with which message), what `bcrypt.hash` returns, and what each random
  call of each loop iteration returns.  Theorems quantify over every `Env`.
* Asynchronous functions become functions `World → World × Completion Unit`:
  the world holds the two collections, the allocator of `_id` values and the
  trace of everything the process did (outside calls, console lines, exit).
* Floating point draws (`Math.random()`, coordinates, confidence) are carried
  as rationals; no property below depends on their value.
-/

namespace Seed

/-! ## Configuration -/

/-- The two batch sizes, `const NUM_USERS = 1; const NUM_REPORTS = 5;`. -/
structure Config where
  NUM_USERS : Nat := 1
  NUM_REPORTS : Nat := 5

/-- The configuration written in the script. -/
def defaultConfig : Config := {}

/-! ## Data model -/

/-- The object `{ public_id, url }` used for `userAvatar` and `media`. -/
structure Asset where
  public_id : String
  url : String

/-- The object literal `user` built in the loop of `seedUsers`. -/
structure UserRecord where
  firstname : String
  lastname : String
  email : String
  phone : String
  password : String
  role : String
  isVerified : Nat
  credibilityScore : Int
  userAvatar : Asset

/-- The `location` object of a report. -/
structure Location where
  type : String
  coordinates : List Rat

/-- The object literal `report` built in the loop of `seedReports`;
`media` is `none` for the empty object, `verifiedBy` is `none` for `null`. -/
structure ReportRecord where
  text : String
  location : Location
  source : String
  media : Option Asset
  status : String
  label : String
  confidence : Rat
  submittedBy : Nat
  verifiedBy : Option Nat

/-- Modelled from the spec: the `User` model (`models/user_scheema.js`) is not
part of the sources; a stored user is the inserted record, with the fields of
the data model unchanged, together with the `_id` given at insertion. -/
structure UserDoc extends UserRecord where
  _id : Nat

/-- Modelled from the spec: the `Report` model (`models/report_scheema.js`) is
not part of the sources; a stored report is the inserted record together with
the `_id` given at insertion. -/
structure ReportDoc extends ReportRecord where
  _id : Nat

/-! ## Outside calls, errors, trace -/

/-- The outside calls that are awaited by the script, with their arguments. -/
inductive Op where
  | connect
  | hash (password : String) (rounds : Nat)
  | deleteUsers
  | deleteReports
  | insertUsers (users : List UserRecord)
  | findUsers (role : String)
  | insertReports (reports : List ReportRecord)
  | disconnect

/-- The database operations of the guarded region: the deletes, finds and
inserts on the two collections. -/
def Op.isCollectionOp : Op → Bool
  | .deleteUsers => true
  | .deleteReports => true
  | .insertUsers _ => true
  | .findUsers _ => true
  | .insertReports _ => true
  | _ => false

/-- The database operations: the collection operations, `mongoose.connect`
and `mongoose.disconnect` (`bcrypt.hash` is not one). -/
def Op.isDatabaseOp : Op → Bool
  | .hash _ _ => false
  | _ => true

/-- The call `mongoose.disconnect()`. -/
def Op.isDisconnect : Op → Bool
  | .disconnect => true
  | _ => false

/-- A thrown value: the error of an outside call that failed, or the error of
picking an element of an empty array. -/
inductive Err where
  | external (op : Op) (message : String)
  | emptyArray

/-- What the process does, in order. -/
inductive Event where
  | call (op : Op)
  | log (msg : String)
  | error (msg : String)
  | errorWith (msg : String) (e : Err)
  | exit (code : Nat)

/-- The event is a call of a collection operation. -/
def Event.isCollectionCall : Event → Bool
  | .call op => op.isCollectionOp
  | _ => false

/-- The event is a call of a database operation. -/
def Event.isDatabaseCall : Event → Bool
  | .call op => op.isDatabaseOp
  | _ => false

/-- The event is the call `mongoose.disconnect()`. -/
def Event.isDisconnectCall : Event → Bool
  | .call op => op.isDisconnect
  | _ => false

/-- The random calls of one iteration of the loop of `seedUsers`. -/
structure UserDraws where
  firstName : String
  lastName : String
  email : String
  phoneHead : Nat
  numeric : Nat → String
  mathRandom : Rat
  int : Nat
  uuid : String
  avatar : String

/-- The random calls of one iteration of the loop of `seedReports`. -/
structure ReportDraws where
  status : Nat
  mathRandom : Rat
  sentence : String
  longitude : Rat
  latitude : Rat
  source : Nat
  uuid : String
  urlLoremFlickr : String
  label : Nat
  float : Rat
  citizen : Nat
  analyst : Nat

/-- Everything the script does not decide itself. `outcome op` is `none` when
the outside call `op` succeeds and `some m` when it throws an error with
message `m`. -/
structure Env where
  outcome : Op → Option String
  bcryptHash : String → Nat → String
  userDraws : Nat → UserDraws
  reportDraws : Nat → ReportDraws

/-- The collections, the next `_id` to hand out, and the trace so far. -/
structure World where
  users : List UserDoc
  reports : List ReportDoc
  nextId : Nat
  trace : List Event

/-- How the run of an asynchronous function ends: it returns, it throws
(the promise rejects), or the process was terminated by `process.exit`. -/
inductive Completion (α : Type) where
  | returned (a : α)
  | thrown (e : Err)
  | exited (code : Nat)

/-- Append one event to the trace. -/
def emit (w : World) (e : Event) : World :=
  { w with trace := w.trace ++ [e] }

/-! ## Helpers of the generator library -/

/-- The helper `faker.helpers.arrayElement(array)`: the element at a drawn
index below the length; it throws on an empty array. The draw `r` is reduced
modulo the length. -/
def arrayElement {α : Type} (array : List α) (r : Nat) : Except Err α :=
  if h : 0 < array.length then
    .ok (array.get ⟨r % array.length, Nat.mod_lt r h⟩)
  else
    .error Err.emptyArray

/-- The helper `faker.number.int({ min, max })` for `min ≤ max`: a drawn
integer between the two bounds. -/
def numberInt (min max : Nat) (r : Nat) : Int :=
  ((min + r % (max - min + 1) : Nat) : Int)

/-! ## Connector -/

/-- The function `connectDB`. -/
def connectDB (env : Env) (w : World) : World × Completion Unit :=
  let w := emit w (.call .connect)
  match env.outcome .connect with
  | none => (emit w (.log "✅ MongoDB Connected..."), .returned ())
  | some message =>
    let w := emit w (.error ("❌ MongoDB Connection Error: " ++ message))
    (emit w (.exit 1), .exited 1)

/-! ## User seeder -/

/-- The body of the loop of `seedUsers` at index `i`: the record pushed. -/
def buildUser (d : UserDraws) (hashedPassword : String) (i : Nat) :
    Except Err UserRecord :=
  let role := if i < 5 then "Analyst" else "Citizen"
  match arrayElement ["9", "8", "7", "6"] d.phoneHead with
  | .error e => .error e
  | .ok head =>
    .ok
      { firstname := d.firstName
        lastname := d.lastName
        email := d.email.toLower
        phone := head ++ d.numeric 9
        password := hashedPassword
        role := role
        isVerified := if d.mathRandom < 8 / 10 then 1 else 0
        credibilityScore := numberInt 0 100 d.int
        userAvatar := { public_id := d.uuid, url := d.avatar } }

/-- The loop `for (let i = 0; i < NUM_USERS; i++) { ...; users.push(user) }`,
with `remaining` iterations left to run from index `i`. -/
def seedUsersLoop (env : Env) (hashedPassword : String) :
    (remaining : Nat) → (i : Nat) → List UserRecord → Except Err (List UserRecord)
  | 0, _, users => .ok users
  | remaining + 1, i, users =>
    match buildUser (env.userDraws i) hashedPassword i with
    | .error e => .error e
    | .ok user => seedUsersLoop env hashedPassword remaining (i + 1) (users ++ [user])

/-- Modelled from the spec: `User.insertMany` of the absent `User` model;
the records are stored in order, the k-th one under the `_id` `next + k`. -/
def storeUsers (next : Nat) : List UserRecord → List UserDoc
  | [] => []
  | u :: us => { toUserRecord := u, _id := next } :: storeUsers (next + 1) us

/-- The function `seedUsers`. -/
def seedUsers (cfg : Config) (env : Env) (w : World) : World × Completion Unit :=
  let defaultPassword := "password123"
  let w := emit w (.call (.hash defaultPassword 10))
  match env.outcome (.hash defaultPassword 10) with
  | some message => (w, .thrown (.external (.hash defaultPassword 10) message))
  | none =>
    let hashedPassword := env.bcryptHash defaultPassword 10
    match seedUsersLoop env hashedPassword cfg.NUM_USERS 0 [] with
    | .error e => (w, .thrown e)
    | .ok users =>
      let w := emit w (.call (.insertUsers users))
      match env.outcome (.insertUsers users) with
      | some message => (w, .thrown (.external (.insertUsers users) message))
      | none =>
        let w := { w with
          users := w.users ++ storeUsers w.nextId users
          nextId := w.nextId + users.length }
        (emit w (.log ("🌱 Seeded " ++ toString users.length ++ " users.")), .returned ())

/-! ## Report seeder -/

/-- The body of the loop of `seedReports`: the record pushed. -/
def buildReport (d : ReportDraws) (citizens analysts : List UserDoc) :
    Except Err ReportRecord :=
  let statuses := ["Pending", "Needs Verification", "Verified"]
  let sources := ["citizen", "twitter", "facebook", "whatsapp"]
  let labels := ["relevant", "irrelevant", "panic"]
  match arrayElement statuses d.status with
  | .error e => .error e
  | .ok randomStatus =>
    let hasMedia : Bool := d.mathRandom < 6 / 10
    match arrayElement sources d.source with
    | .error e => .error e
    | .ok source =>
      match arrayElement labels d.label with
      | .error e => .error e
      | .ok label =>
        match arrayElement citizens d.citizen with
        | .error e => .error e
        | .ok citizen =>
          let verifiedBy : Except Err (Option Nat) :=
            if randomStatus = "Verified" ∧ analysts.length > 0 then
              match arrayElement analysts d.analyst with
              | .error e => .error e
              | .ok analyst => .ok (some analyst._id)
            else .ok none
          match verifiedBy with
          | .error e => .error e
          | .ok verifiedBy =>
            .ok
              { text := d.sentence
                location := { type := "Point", coordinates := [d.longitude, d.latitude] }
                source := source
                media :=
                  if hasMedia then some { public_id := d.uuid, url := d.urlLoremFlickr }
                  else none
                status := randomStatus
                label := label
                confidence := d.float
                submittedBy := citizen._id
                verifiedBy := verifiedBy }

/-- The loop `for (let i = 0; i < NUM_REPORTS; i++) { ...; reports.push(report) }`,
with `remaining` iterations left to run from index `i`. -/
def seedReportsLoop (env : Env) (citizens analysts : List UserDoc) :
    (remaining : Nat) → (i : Nat) → List ReportRecord → Except Err (List ReportRecord)
  | 0, _, reports => .ok reports
  | remaining + 1, i, reports =>
    match buildReport (env.reportDraws i) citizens analysts with
    | .error e => .error e
    | .ok report =>
      seedReportsLoop env citizens analysts remaining (i + 1) (reports ++ [report])

/-- Modelled from the spec: `User.find({ role })` of the absent `User` model;
the stored users whose `role` field is the one asked for. -/
def findUsers (w : World) (role : String) : List UserDoc :=
  w.users.filter (fun u => u.role == role)

/-- Modelled from the spec: `Report.insertMany` of the absent `Report` model;
the records are stored in order, the k-th one under the `_id` `next + k`. -/
def storeReports (next : Nat) : List ReportRecord → List ReportDoc
  | [] => []
  | r :: rs => { toReportRecord := r, _id := next } :: storeReports (next + 1) rs

/-- The function `seedReports`. -/
def seedReports (cfg : Config) (env : Env) (w : World) : World × Completion Unit :=
  let w := emit w (.call (.findUsers "Citizen"))
  match env.outcome (.findUsers "Citizen") with
  | some message => (w, .thrown (.external (.findUsers "Citizen") message))
  | none =>
    let citizens := findUsers w "Citizen"
    let w := emit w (.call (.findUsers "Analyst"))
    match env.outcome (.findUsers "Analyst") with
    | some message => (w, .thrown (.external (.findUsers "Analyst") message))
    | none =>
      let analysts := findUsers w "Analyst"
      if citizens.length = 0 then
        (emit w (.error "❌ Cannot seed reports: No citizen users found."), .returned ())
      else
        match seedReportsLoop env citizens analysts cfg.NUM_REPORTS 0 [] with
        | .error e => (w, .thrown e)
        | .ok reports =>
          let w := emit w (.call (.insertReports reports))
          match env.outcome (.insertReports reports) with
          | some message => (w, .thrown (.external (.insertReports reports) message))
          | none =>
            let w := { w with
              reports := w.reports ++ storeReports w.nextId reports
              nextId := w.nextId + reports.length }
            (emit w (.log ("🌱 Seeded " ++ toString reports.length ++ " reports.")),
              .returned ())

/-! ## Orchestrator -/

/-- The `try` block of `seedDatabase`. -/
def guardedRegion (cfg : Config) (env : Env) (w : World) : World × Completion Unit :=
  let w := emit w (.log "🧹 Clearing existing data...")
  let w := emit w (.call .deleteUsers)
  match env.outcome .deleteUsers with
  | some message => (w, .thrown (.external .deleteUsers message))
  | none =>
    let w := { w with users := [] }
    let w := emit w (.call .deleteReports)
    match env.outcome .deleteReports with
    | some message => (w, .thrown (.external .deleteReports message))
    | none =>
      let w := { w with reports := [] }
      let w := emit w (.log "✅ Data cleared.")
      match seedUsers cfg env w with
      | (w, .thrown e) => (w, .thrown e)
      | (w, .exited code) => (w, .exited code)
      | (w, .returned ()) =>
        match seedReports cfg env w with
        | (w, .thrown e) => (w, .thrown e)
        | (w, .exited code) => (w, .exited code)
        | (w, .returned ()) =>
          (emit w (.log "🎉 Database seeding completed successfully!"), .returned ())

/-- The `finally` block of `seedDatabase`. -/
def finallyBlock (env : Env) (w : World) : World × Completion Unit :=
  let w := emit w (.call .disconnect)
  match env.outcome .disconnect with
  | some message => (w, .thrown (.external .disconnect message))
  | none => (emit w (.log "👋 MongoDB Disconnected."), .returned ())

/-- The function `seedDatabase`, which is the whole run of the script. -/
def seedDatabase (cfg : Config) (env : Env) (w : World) : World × Completion Unit :=
  let w := emit w (.log "🚀 Starting database seeding process...")
  match connectDB env w with
  | (w, .exited code) => (w, .exited code)
  | (w, .thrown e) => (w, .thrown e)
  | (w, .returned ()) =>
    match guardedRegion cfg env w with
    | (w, .exited code) => (w, .exited code)
    | (w, .thrown e) =>
      finallyBlock env (emit w (.errorWith "❌ An error occurred during seeding:" e))
    | (w, .returned ()) => finallyBlock env w

/-! ## Shape of a trace segment -/

/-- A segment of the trace produced by a step that ended with `res`:
`mongoose.disconnect` is not called in it, and either the step returned and
every call of the segment succeeded, or the step threw the error of the call
that ends the segment and every call before that one succeeded. -/
def Orderly (env : Env) (seg : List Event) (res : Completion Unit) : Prop :=
  (∀ e ∈ seg, e.isDisconnectCall = false) ∧
  ((res = .returned () ∧ ∀ op, Event.call op ∈ seg → env.outcome op = none) ∨
    (∃ done op message, res = .thrown (.external op message) ∧
      seg = done ++ [Event.call op] ∧ env.outcome op = some message ∧
      ∀ op', Event.call op' ∈ done → env.outcome op' = none))

/-! ## Sample inputs -/

/-- One outcome of the random calls of a user iteration. -/
def sampleUserDraws : UserDraws :=
  { firstName := "Asha"
    lastName := "Rao"
    email := "Asha.Rao@Example.com"
    phoneHead := 2
    numeric := fun n => String.mk (List.replicate n '4')
    mathRandom := 1 / 2
    int := 250
    uuid := "0b9f7c1e"
    avatar := "https://avatars.example/1.png" }

/-- One outcome of the random calls of a report iteration. -/
def sampleReportDraws : ReportDraws :=
  { status := 2
    mathRandom := 1 / 4
    sentence := "water rising near the bridge today"
    longitude := 80
    latitude := 13
    source := 1
    uuid := "5d2a9e40"
    urlLoremFlickr := "https://loremflickr.example/nature"
    label := 0
    float := 1 / 2
    citizen := 3
    analyst := 7 }

/-- An environment in which every outside call succeeds. -/
def sampleEnv : Env :=
  { outcome := fun _ => none
    bcryptHash := fun password rounds => "$2b$" ++ toString rounds ++ "$" ++ password
    userDraws := fun _ => sampleUserDraws
    reportDraws := fun _ => sampleReportDraws }

/-- A stored user used to fill sample worlds. -/
def sampleUserDoc (role : String) (id : Nat) : UserDoc :=
  { firstname := "Old"
    lastname := "User"
    email := "old@example.com"
    phone := "9000000000"
    password := "x"
    role := role
    isVerified := 1
    credibilityScore := 10
    userAvatar := { public_id := "p", url := "u" }
    _id := id }

/-- A stored report used to fill sample worlds. -/
def sampleReportDoc (id : Nat) : ReportDoc :=
  { text := "old report"
    location := { type := "Point", coordinates := [80, 13] }
    source := "citizen"
    media := none
    status := "Pending"
    label := "panic"
    confidence := 1 / 2
    submittedBy := 1
    verifiedBy := none
    _id := id }

/-- A world with documents in both collections before the run. -/
def sampleWorld : World :=
  { users := [sampleUserDoc "Citizen" 1, sampleUserDoc "Analyst" 2]
    reports := [sampleReportDoc 3]
    nextId := 4
    trace := [] }

/-- An environment in which the bulk insert of users is rejected and every
other outside call succeeds. -/
def rejectingEnv : Env :=
  { sampleEnv with
    outcome := fun op =>
      match op with
      | .insertUsers _ => some "User validation failed"
      | _ => none }

/-- An environment in which the database cannot be reached. -/
def unreachableEnv : Env :=
  { sampleEnv with
    outcome := fun op =>
      match op with
      | .connect => some "connect ECONNREFUSED 127.0.0.1:27017"
      | _ => none }

/-! ## The generation loops -/

/-- Picking from a non-empty array returns one of its elements. -/
theorem arrayElement_of_pos {α : Type} (array : List α) (r : Nat)
    (h : 0 < array.length) :
    ∃ x, arrayElement array r = .ok x ∧ x ∈ array := by
  refine ⟨array.get ⟨r % array.length, Nat.mod_lt r h⟩, ?_, List.get_mem _ _ _⟩
  simp [arrayElement, h]

/-- Picking from an empty array throws. -/
theorem arrayElement_nil {α : Type} (r : Nat) :
    arrayElement ([] : List α) r = .error Err.emptyArray := by
  simp [arrayElement]

/-- The loop body of `seedUsers` never throws; the record it returns has the
role given by the threshold and a phone made of one of the four leading
digits followed by the nine-character numeric draw. -/
theorem buildUser_ok (d : UserDraws) (hashedPassword : String) (i : Nat) :
    ∃ u, buildUser d hashedPassword i = .ok u ∧
      u.role = (if i < 5 then "Analyst" else "Citizen") ∧
      ∃ head ∈ ["9", "8", "7", "6"], u.phone = head ++ d.numeric 9 := by
  obtain ⟨head, hhead, hmem⟩ :=
    arrayElement_of_pos ["9", "8", "7", "6"] d.phoneHead (by simp)
  simp only [buildUser, hhead]
  exact ⟨_, rfl, rfl, head, hmem, rfl⟩

/-- The loop of `seedUsers` runs all its iterations: it returns the records
it started with followed by one record per remaining index, in order. -/
theorem seedUsersLoop_ok (env : Env) (hashedPassword : String) :
    ∀ (remaining i : Nat) (users : List UserRecord),
      ∃ built, seedUsersLoop env hashedPassword remaining i users = .ok (users ++ built) ∧
        built.length = remaining ∧
        ∀ j, j < remaining →
          ∃ u, built[j]? = some u ∧
            buildUser (env.userDraws (i + j)) hashedPassword (i + j) = .ok u := by
  intro remaining
  induction remaining with
  | zero =>
    intro i users
    exact ⟨[], by simp [seedUsersLoop], rfl, by intro j hj; omega⟩
  | succ n ih =>
    intro i users
    obtain ⟨u, hu, -⟩ := buildUser_ok (env.userDraws i) hashedPassword i
    obtain ⟨rest, hrest, hlen, hget⟩ := ih (i + 1) (users ++ [u])
    refine ⟨u :: rest, ?_, by simp [hlen], ?_⟩
    · simp only [seedUsersLoop, hu, hrest, List.append_assoc, List.singleton_append]
    · intro j hj
      cases j with
      | zero => exact ⟨u, by simp, by simpa using hu⟩
      | succ j =>
        obtain ⟨v, hv, hbv⟩ := hget j (by omega)
        refine ⟨v, by simpa using hv, ?_⟩
        have : i + (j + 1) = i + 1 + j := by omega
        rw [this]; exact hbv

/-- The roles of the records built by the loop of `seedUsers`, in order. -/
theorem seedUsersLoop_roles (env : Env) (hashedPassword : String) (N : Nat)
    (users : List UserRecord)
    (h : seedUsersLoop env hashedPassword N 0 [] = .ok users) :
    users.map (fun u => u.role) =
      (List.range N).map (fun i => if i < 5 then "Analyst" else "Citizen") := by
  obtain ⟨built, hbuilt, hlen, hget⟩ := seedUsersLoop_ok env hashedPassword N 0 []
  rw [hbuilt] at h
  simp only [List.nil_append, Except.ok.injEq] at h
  subst h
  apply List.ext_getElem?
  intro j
  by_cases hj : j < N
  · obtain ⟨u, hu, hbu⟩ := hget j hj
    obtain ⟨u', hu', hrole, -⟩ := buildUser_ok (env.userDraws (0 + j)) hashedPassword (0 + j)
    rw [hbu] at hu'
    simp only [Except.ok.injEq] at hu'
    subst hu'
    simp only [List.getElem?_map, hu, Option.map_some', hrole, List.getElem?_range hj]
    simp
  · have h1 : built.length ≤ j := by omega
    simp [List.getElem?_eq_none, h1, Nat.le_of_not_lt hj]

/-- The loop body of `seedReports` never throws when the array of citizens is
not empty; `submittedBy` is the `_id` of one of the citizens and `verifiedBy`
follows the status and the array of analysts. -/
theorem buildReport_ok (d : ReportDraws) (citizens analysts : List UserDoc)
    (hc : 0 < citizens.length) :
    ∃ r, buildReport d citizens analysts = .ok r ∧
      (∃ c ∈ citizens, r.submittedBy = c._id) ∧
      (r.status = "Verified" ∧ analysts.length > 0 →
        ∃ a ∈ analysts, r.verifiedBy = some a._id) ∧
      (¬ (r.status = "Verified" ∧ analysts.length > 0) → r.verifiedBy = none) := by
  obtain ⟨status, hstatus, -⟩ :=
    arrayElement_of_pos ["Pending", "Needs Verification", "Verified"] d.status (by simp)
  obtain ⟨source, hsource, -⟩ :=
    arrayElement_of_pos ["citizen", "twitter", "facebook", "whatsapp"] d.source (by simp)
  obtain ⟨label, hlabel, -⟩ :=
    arrayElement_of_pos ["relevant", "irrelevant", "panic"] d.label (by simp)
  obtain ⟨citizen, hcitizen, hcmem⟩ := arrayElement_of_pos citizens d.citizen hc
  by_cases hv : status = "Verified" ∧ analysts.length > 0
  · obtain ⟨analyst, hanalyst, hamem⟩ := arrayElement_of_pos analysts d.analyst hv.2
    have hb : ∃ r, buildReport d citizens analysts = .ok r ∧ r.status = status ∧
        r.submittedBy = citizen._id ∧ r.verifiedBy = some analyst._id := by
      simp only [buildReport, hstatus, hsource, hlabel, hcitizen, hv, and_self, if_true,
        hanalyst]
      exact ⟨_, rfl, rfl, rfl, rfl⟩
    obtain ⟨r, hr, hrs, hrc, hrv⟩ := hb
    exact ⟨r, hr, ⟨citizen, hcmem, hrc⟩, fun _ => ⟨analyst, hamem, hrv⟩,
      fun hn => absurd ⟨hrs.trans hv.1, hv.2⟩ hn⟩
  · have hb : ∃ r, buildReport d citizens analysts = .ok r ∧ r.status = status ∧
        r.submittedBy = citizen._id ∧ r.verifiedBy = none := by
      simp only [buildReport, hstatus, hsource, hlabel, hcitizen, hv, if_false]
      exact ⟨_, rfl, rfl, rfl, rfl⟩
    obtain ⟨r, hr, hrs, hrc, hrv⟩ := hb
    exact ⟨r, hr, ⟨citizen, hcmem, hrc⟩, fun hp => absurd ⟨hrs ▸ hp.1, hp.2⟩ hv,
      fun _ => hrv⟩

/-- The loop of `seedReports` runs all its iterations when the array of
citizens is not empty: it returns the records it started with followed by one
record per remaining index, each of them returned by the loop body. -/
theorem seedReportsLoop_ok (env : Env) (citizens analysts : List UserDoc)
    (hc : 0 < citizens.length) :
    ∀ (remaining i : Nat) (reports : List ReportRecord),
      ∃ built, seedReportsLoop env citizens analysts remaining i reports =
          .ok (reports ++ built) ∧
        built.length = remaining ∧
        ∀ r ∈ built, ∃ j, buildReport (env.reportDraws j) citizens analysts = .ok r := by
  intro remaining
  induction remaining with
  | zero =>
    intro i reports
    exact ⟨[], by simp [seedReportsLoop], rfl, by simp⟩
  | succ n ih =>
    intro i reports
    obtain ⟨r, hr, -⟩ := buildReport_ok (env.reportDraws i) citizens analysts hc
    obtain ⟨rest, hrest, hlen, hall⟩ := ih (i + 1) (reports ++ [r])
    refine ⟨r :: rest, ?_, by simp [hlen], ?_⟩
    · simp only [seedReportsLoop, hr, hrest, List.append_assoc, List.singleton_append]
    · intro x hx
      rcases List.mem_cons.mp hx with rfl | hx
      · exact ⟨i, hr⟩
      · exact hall x hx

/-- A run of `seedReports` in which both queries succeed and the array of
citizens is not empty: the loop returns `NUM_REPORTS` records and the bulk
insert is called with them. -/
theorem seedReports_run (cfg : Config) (env : Env) (w : World)
    (hC : env.outcome (.findUsers "Citizen") = none)
    (hA : env.outcome (.findUsers "Analyst") = none)
    (hc : 0 < (findUsers w "Citizen").length) :
    ∃ reports,
      seedReportsLoop env (findUsers w "Citizen") (findUsers w "Analyst")
        cfg.NUM_REPORTS 0 [] = .ok reports ∧
      reports.length = cfg.NUM_REPORTS ∧
      (∀ r ∈ reports, ∃ j,
        buildReport (env.reportDraws j) (findUsers w "Citizen") (findUsers w "Analyst")
          = .ok r) ∧
      seedReports cfg env w =
        match env.outcome (.insertReports reports) with
        | some message =>
          ({ w with trace := w.trace ++ [.call (.findUsers "Citizen"),
              .call (.findUsers "Analyst"), .call (.insertReports reports)] },
            .thrown (.external (.insertReports reports) message))
        | none =>
          ({ w with
              reports := w.reports ++ storeReports w.nextId reports
              nextId := w.nextId + reports.length
              trace := w.trace ++ [.call (.findUsers "Citizen"),
                .call (.findUsers "Analyst"), .call (.insertReports reports),
                .log ("🌱 Seeded " ++ toString reports.length ++ " reports.")] },
            .returned ()) := by
  obtain ⟨built, hbuilt, hlen, hall⟩ :=
    seedReportsLoop_ok env (findUsers w "Citizen") (findUsers w "Analyst") hc
      cfg.NUM_REPORTS 0 []
  simp only [List.nil_append] at hbuilt
  refine ⟨built, hbuilt, hlen, hall, ?_⟩
  have hne : ¬ (findUsers w "Citizen").length = 0 := by omega
  simp only [seedReports, emit, findUsers] at *
  simp only [hC, hA, hne, if_false, hbuilt]
  cases env.outcome (.insertReports built) <;> simp

/-! ## Traces of the steps of the run -/

/-- A segment that returned, followed by an orderly segment, is orderly. -/
theorem Orderly.append {env : Env} {s₁ s₂ : List Event} {res : Completion Unit}
    (h₁ : Orderly env s₁ (.returned ())) (h₂ : Orderly env s₂ res) :
    Orderly env (s₁ ++ s₂) res := by
  obtain ⟨hd₁, hr₁⟩ := h₁
  obtain ⟨hd₂, hr₂⟩ := h₂
  have hok₁ : ∀ op, Event.call op ∈ s₁ → env.outcome op = none := by
    rcases hr₁ with ⟨-, h⟩ | ⟨_, _, _, h, -⟩
    · exact h
    · cases h
  refine ⟨?_, ?_⟩
  · intro e he
    rcases List.mem_append.mp he with he | he
    · exact hd₁ e he
    · exact hd₂ e he
  · rcases hr₂ with ⟨hres, hok₂⟩ | ⟨done, op, message, hres, hseg, hout, hdone⟩
    · left
      refine ⟨hres, ?_⟩
      intro op hop
      rcases List.mem_append.mp hop with hop | hop
      · exact hok₁ op hop
      · exact hok₂ op hop
    · right
      refine ⟨s₁ ++ done, op, message, hres, by rw [hseg, List.append_assoc], hout, ?_⟩
      intro op' hop'
      rcases List.mem_append.mp hop' with hop' | hop'
      · exact hok₁ op' hop'
      · exact hdone op' hop'

/-- The trace of `seedUsers` is an orderly segment added to the trace. -/
theorem seedUsers_orderly (cfg : Config) (env : Env) (w : World) :
    ∃ seg, (seedUsers cfg env w).1.trace = w.trace ++ seg ∧
      Orderly env seg (seedUsers cfg env w).2 := by
  obtain ⟨users, hloop, -, -⟩ :=
    seedUsersLoop_ok env (env.bcryptHash "password123" 10) cfg.NUM_USERS 0 []
  simp only [List.nil_append] at hloop
  cases hH : env.outcome (.hash "password123" 10) with
  | some m =>
    refine ⟨[.call (.hash "password123" 10)], by simp [seedUsers, emit, hH], ?_⟩
    simp only [seedUsers, hH]
    exact ⟨by simp [Event.isDisconnectCall, Op.isDisconnect],
      Or.inr ⟨[], _, m, rfl, rfl, hH, by simp⟩⟩
  | none =>
    cases hI : env.outcome (.insertUsers users) with
    | some m =>
      refine ⟨[.call (.hash "password123" 10), .call (.insertUsers users)],
        by simp [seedUsers, emit, hH, hloop, hI], ?_⟩
      simp only [seedUsers, hH, hloop, hI]
      refine ⟨by simp [Event.isDisconnectCall, Op.isDisconnect],
        Or.inr ⟨[.call (.hash "password123" 10)], _, m, rfl, rfl, hI, ?_⟩⟩
      intro op' hop'
      simp at hop'
      subst hop'
      exact hH
    | none =>
      refine ⟨[.call (.hash "password123" 10), .call (.insertUsers users),
          .log ("🌱 Seeded " ++ toString users.length ++ " users.")],
        by simp [seedUsers, emit, hH, hloop, hI], ?_⟩
      simp only [seedUsers, hH, hloop, hI]
      refine ⟨by simp [Event.isDisconnectCall, Op.isDisconnect], Or.inl ⟨rfl, ?_⟩⟩
      intro op' hop'
      simp at hop'
      rcases hop' with rfl | rfl
      · exact hH
      · exact hI

/-- The trace of `seedReports` is an orderly segment added to the trace. -/
theorem seedReports_orderly (cfg : Config) (env : Env) (w : World) :
    ∃ seg, (seedReports cfg env w).1.trace = w.trace ++ seg ∧
      Orderly env seg (seedReports cfg env w).2 := by
  cases hC : env.outcome (.findUsers "Citizen") with
  | some m =>
    refine ⟨[.call (.findUsers "Citizen")], by simp [seedReports, emit, hC], ?_⟩
    simp only [seedReports, hC]
    exact ⟨by simp [Event.isDisconnectCall, Op.isDisconnect],
      Or.inr ⟨[], _, m, rfl, rfl, hC, by simp⟩⟩
  | none =>
    cases hA : env.outcome (.findUsers "Analyst") with
    | some m =>
      refine ⟨[.call (.findUsers "Citizen"), .call (.findUsers "Analyst")],
        by simp [seedReports, emit, hC, hA], ?_⟩
      simp only [seedReports, hC, hA]
      refine ⟨by simp [Event.isDisconnectCall, Op.isDisconnect],
        Or.inr ⟨[.call (.findUsers "Citizen")], _, m, rfl, rfl, hA, ?_⟩⟩
      intro op' hop'
      simp at hop'
      subst hop'
      exact hC
    | none =>
      by_cases hc : (findUsers w "Citizen").length = 0
      · have hrun : seedReports cfg env w =
            ({ w with trace := w.trace ++ [.call (.findUsers "Citizen"),
                .call (.findUsers "Analyst"),
                .error "❌ Cannot seed reports: No citizen users found."] },
              .returned ()) := by
          simp only [seedReports, emit, findUsers] at *
          simp [hC, hA, hc]
        rw [hrun]
        refine ⟨_, rfl, by simp [Event.isDisconnectCall, Op.isDisconnect], Or.inl ⟨rfl, ?_⟩⟩
        intro op' hop'
        simp at hop'
        rcases hop' with rfl | rfl
        · exact hC
        · exact hA
      · obtain ⟨reports, -, -, -, hrun⟩ :=
          seedReports_run cfg env w hC hA (by omega)
        cases hI : env.outcome (.insertReports reports) with
        | some m =>
          rw [hI] at hrun
          rw [hrun]
          refine ⟨_, rfl, by simp [Event.isDisconnectCall, Op.isDisconnect],
            Or.inr ⟨[.call (.findUsers "Citizen"), .call (.findUsers "Analyst")], _, m,
              rfl, rfl, hI, ?_⟩⟩
          intro op' hop'
          simp at hop'
          rcases hop' with rfl | rfl
          · exact hC
          · exact hA
        | none =>
          rw [hI] at hrun
          rw [hrun]
          refine ⟨_, rfl, by simp [Event.isDisconnectCall, Op.isDisconnect],
            Or.inl ⟨rfl, ?_⟩⟩
          intro op' hop'
          simp at hop'
          rcases hop' with rfl | rfl | rfl
          · exact hC
          · exact hA
          · exact hI

/-- The trace of the guarded region is an orderly segment added to the
trace. -/
theorem guardedRegion_orderly (cfg : Config) (env : Env) (w : World) :
    ∃ seg, (guardedRegion cfg env w).1.trace = w.trace ++ seg ∧
      Orderly env seg (guardedRegion cfg env w).2 := by
  cases hU : env.outcome .deleteUsers with
  | some m =>
    refine ⟨[.log "🧹 Clearing existing data...", .call .deleteUsers],
      by simp [guardedRegion, emit, hU], ?_⟩
    simp only [guardedRegion, hU]
    exact ⟨by simp [Event.isDisconnectCall, Op.isDisconnect],
      Or.inr ⟨[.log "🧹 Clearing existing data..."], _, m, rfl, rfl, hU, by simp⟩⟩
  | none =>
    cases hR : env.outcome .deleteReports with
    | some m =>
      refine ⟨[.log "🧹 Clearing existing data...", .call .deleteUsers, .call .deleteReports],
        by simp [guardedRegion, emit, hU, hR], ?_⟩
      simp only [guardedRegion, hU, hR]
      refine ⟨by simp [Event.isDisconnectCall, Op.isDisconnect],
        Or.inr ⟨[.log "🧹 Clearing existing data...", .call .deleteUsers], _, m, rfl, rfl,
          hR, ?_⟩⟩
      intro op' hop'
      simp at hop'
      subst hop'
      exact hU
    | none =>
      have hclear : Orderly env [.log "🧹 Clearing existing data...", .call .deleteUsers,
          .call .deleteReports, .log "✅ Data cleared."] (.returned ()) := by
        refine ⟨by simp [Event.isDisconnectCall, Op.isDisconnect], Or.inl ⟨rfl, ?_⟩⟩
        intro op' hop'
        simp at hop'
        rcases hop' with rfl | rfl
        · exact hU
        · exact hR
      obtain ⟨s₂, ht₂, ho₂⟩ := seedUsers_orderly cfg env
        (emit { emit { emit (emit w (.log "🧹 Clearing existing data..."))
          (.call .deleteUsers) with users := [] } (.call .deleteReports) with reports := [] }
          (.log "✅ Data cleared."))
      simp only [guardedRegion, hU, hR]
      rcases hsu : seedUsers cfg env
        (emit { emit { emit (emit w (.log "🧹 Clearing existing data..."))
          (.call .deleteUsers) with users := [] } (.call .deleteReports) with reports := [] }
          (.log "✅ Data cleared.")) with ⟨w₂, r₂⟩
      rw [hsu] at ht₂ ho₂
      simp only [emit, List.append_assoc, List.singleton_append] at ht₂
      cases r₂ with
      | thrown e =>
        exact ⟨_, by simpa using ht₂, by simpa using hclear.append ho₂⟩
      | exited code =>
        exact ⟨_, by simpa using ht₂, by simpa using hclear.append ho₂⟩
      | returned u =>
        cases u
        obtain ⟨s₃, ht₃, ho₃⟩ := seedReports_orderly cfg env w₂
        rcases hsr : seedReports cfg env w₂ with ⟨w₃, r₃⟩
        rw [hsr] at ht₃ ho₃
        dsimp only at ht₃ ho₃ ht₂ ho₂ ⊢
        rw [hsr]
        cases r₃ with
        | thrown e =>
          dsimp only
          refine ⟨_, ?_, (hclear.append ho₂).append ho₃⟩
          simp [ht₃, ht₂]
        | exited code =>
          dsimp only
          refine ⟨_, ?_, (hclear.append ho₂).append ho₃⟩
          simp [ht₃, ht₂]
        | returned u =>
          cases u
          dsimp only
          have hlast : Orderly env [.log "🎉 Database seeding completed successfully!"]
              (.returned ()) :=
            ⟨by simp [Event.isDisconnectCall], Or.inl ⟨rfl, by simp⟩⟩
          refine ⟨_, ?_, ((hclear.append ho₂).append ho₃).append hlast⟩
          simp [emit, ht₃, ht₂]

/-- In an orderly segment a call that threw is the last event. -/
theorem Orderly.throw_is_last {env : Env} {seg : List Event} {res : Completion Unit}
    (h : Orderly env seg res) (a b : List Event) (op : Op)
    (hseg : seg = a ++ Event.call op :: b) (hop : env.outcome op ≠ none) : b = [] := by
  have hmem : Event.call op ∈ seg := by rw [hseg]; simp
  rcases h.2 with ⟨-, hok⟩ | ⟨done, op₀, message, -, hdone, -, hok⟩
  · exact absurd (hok op hmem) hop
  · rw [hdone] at hseg
    rcases List.append_eq_append_iff.mp hseg with ⟨a', -, h2⟩ | ⟨c', h1, h2⟩
    · cases a' with
      | nil =>
        simp only [List.nil_append, List.cons.injEq] at h2
        exact h2.2.symm
      | cons x xs =>
        simp only [List.cons_append, List.cons.injEq] at h2
        have := congrArg List.length h2.2
        simp at this
        omega
    · cases c' with
      | nil =>
        simp only [List.nil_append, List.cons.injEq] at h2
        exact h2.2
      | cons x xs =>
        simp only [List.cons_append, List.cons.injEq] at h2
        have hin : Event.call op ∈ done := by rw [h1, ← h2.1]; simp
        exact absurd (hok op hin) hop

/-- An orderly segment followed by events that are not calls: nothing is
called after a call that threw. -/
theorem Orderly.quiet_after_throw {env : Env} {seg tail : List Event}
    {res : Completion Unit} (h : Orderly env seg res)
    (htail : ∀ e ∈ tail, ∀ op, e ≠ Event.call op) (a b : List Event) (op : Op)
    (hsplit : seg ++ tail = a ++ Event.call op :: b) (hop : env.outcome op ≠ none) :
    ∀ e ∈ b, ∀ op', e ≠ Event.call op' := by
  rcases List.append_eq_append_iff.mp hsplit with ⟨a', -, h2⟩ | ⟨c', h1, h2⟩
  · exact absurd rfl (htail (Event.call op) (by rw [h2]; simp) op)
  · cases c' with
    | nil =>
      simp only [List.nil_append] at h2
      exact absurd rfl (htail (Event.call op) (by rw [← h2]; simp) op)
    | cons x xs =>
      simp only [List.cons_append, List.cons.injEq] at h2
      obtain ⟨hx, hb⟩ := h2
      subst hx
      have hxs : xs = [] := h.throw_is_last a xs op h1 hop
      subst hxs
      intro e he
      rw [hb] at he
      exact htail e (by simpa using he)

/-- The `finally` block: one call of `mongoose.disconnect`, then the
confirmation line when the call succeeded. -/
theorem finallyBlock_run (env : Env) (w : World) :
    ∃ post, (finallyBlock env w).1 =
        { w with trace := w.trace ++ [Event.call .disconnect] ++ post } ∧
      (∀ e ∈ post, e.isDatabaseCall = false) ∧
      (finallyBlock env w).2 =
        match env.outcome .disconnect with
        | none => .returned ()
        | some message => .thrown (.external .disconnect message) := by
  cases hD : env.outcome .disconnect with
  | some m => exact ⟨[], by simp [finallyBlock, emit, hD], by simp, by simp [finallyBlock, hD]⟩
  | none =>
    exact ⟨[.log "👋 MongoDB Disconnected."], by simp [finallyBlock, emit, hD],
      by simp [Event.isDatabaseCall], by simp [finallyBlock, hD]⟩

/-! ## Runs in which every outside call succeeds -/

/-- Stored users keep their role. -/
theorem storeUsers_roles (next : Nat) (users : List UserRecord) :
    (storeUsers next users).map (fun d => d.role) = users.map (fun u => u.role) := by
  induction users generalizing next with
  | nil => rfl
  | cons u us ih => simp [storeUsers, ih]

/-- As many users are stored as were passed. -/
theorem storeUsers_length (next : Nat) (users : List UserRecord) :
    (storeUsers next users).length = users.length := by
  induction users generalizing next with
  | nil => rfl
  | cons u us ih => simp [storeUsers, ih]

/-- As many reports are stored as were passed. -/
theorem storeReports_length (next : Nat) (reports : List ReportRecord) :
    (storeReports next reports).length = reports.length := by
  induction reports generalizing next with
  | nil => rfl
  | cons r rs ih => simp [storeReports, ih]

/-- Stored users receive identifiers from `next` on. -/
theorem storeUsers_id_ge (next : Nat) (users : List UserRecord) :
    ∀ d ∈ storeUsers next users, next ≤ d._id := by
  induction users generalizing next with
  | nil => intro d hd; simp [storeUsers] at hd
  | cons u us ih =>
    intro d hd
    simp only [storeUsers, List.mem_cons] at hd
    rcases hd with rfl | hd
    · exact Nat.le_refl _
    · exact Nat.le_of_succ_le (ih (next + 1) d hd)

/-- Stored reports receive identifiers from `next` on. -/
theorem storeReports_id_ge (next : Nat) (reports : List ReportRecord) :
    ∀ d ∈ storeReports next reports, next ≤ d._id := by
  induction reports generalizing next with
  | nil => intro d hd; simp [storeReports] at hd
  | cons r rs ih =>
    intro d hd
    simp only [storeReports, List.mem_cons] at hd
    rcases hd with rfl | hd
    · exact Nat.le_refl _
    · exact Nat.le_of_succ_le (ih (next + 1) d hd)

/-- Among the roles given by the threshold to the first `N` indices, `Analyst`
occurs `min N 5` times and `Citizen` occurs `N - min N 5` times. -/
theorem threshold_role_counts (N : Nat) :
    ((List.range N).map (fun i => if i < 5 then "Analyst" else "Citizen")).countP
        (fun r => r == "Analyst") = min N 5 ∧
    ((List.range N).map (fun i => if i < 5 then "Analyst" else "Citizen")).countP
        (fun r => r == "Citizen") = N - min N 5 := by
  induction N with
  | zero => simp
  | succ n ih =>
    obtain ⟨ihA, ihC⟩ := ih
    rw [List.range_succ, List.map_append, List.countP_append, List.countP_append, ihA, ihC]
    by_cases h5 : n < 5
    · have hA : (("Analyst" : String) == "Citizen") = false := by decide
      simp only [List.map_cons, List.map_nil, h5, if_true, List.countP_cons, List.countP_nil,
        beq_self_eq_true, hA, Bool.false_eq_true, if_false]
      omega
    · have hC : (("Citizen" : String) == "Analyst") = false := by decide
      simp only [List.map_cons, List.map_nil, h5, if_false, List.countP_cons,
        List.countP_nil, beq_self_eq_true, hC, Bool.false_eq_true, if_true]
      omega

/-- The number of stored users with a given role, counted on the roles. -/
theorem findUsers_length (w : World) (role : String) :
    (findUsers w role).length =
      (w.users.map (fun d => d.role)).countP (fun r => r == role) := by
  rw [findUsers, ← List.countP_eq_length_filter, List.countP_map]
  rfl

/-- When both queries succeed and no citizen is found, `seedReports` logs the
error and returns. -/
theorem seedReports_no_citizen (cfg : Config) (env : Env) (w : World)
    (hC : env.outcome (.findUsers "Citizen") = none)
    (hA : env.outcome (.findUsers "Analyst") = none)
    (hc : (findUsers w "Citizen").length = 0) :
    seedReports cfg env w =
      ({ w with trace := w.trace ++ [.call (.findUsers "Citizen"),
          .call (.findUsers "Analyst"),
          .error "❌ Cannot seed reports: No citizen users found."] },
        .returned ()) := by
  simp only [seedReports, emit, findUsers] at *
  simp [hC, hA, hc]

/-- When every outside call succeeds, `seedUsers` stores the records built by
its loop after the users already present. -/
theorem seedUsers_success (cfg : Config) (env : Env)
    (hall : ∀ op, env.outcome op = none) :
    ∃ users, seedUsersLoop env (env.bcryptHash "password123" 10) cfg.NUM_USERS 0 [] =
        .ok users ∧ users.length = cfg.NUM_USERS ∧
      ∀ w, seedUsers cfg env w =
        ({ w with
            users := w.users ++ storeUsers w.nextId users
            nextId := w.nextId + users.length
            trace := w.trace ++ [.call (.hash "password123" 10), .call (.insertUsers users),
              .log ("🌱 Seeded " ++ toString users.length ++ " users.")] },
          .returned ()) := by
  obtain ⟨users, hloop, hlen, -⟩ :=
    seedUsersLoop_ok env (env.bcryptHash "password123" 10) cfg.NUM_USERS 0 []
  simp only [List.nil_append] at hloop
  refine ⟨users, hloop, hlen, ?_⟩
  intro w
  simp [seedUsers, emit, hall, hloop]

/-- The world in which `seedReports` runs when every outside call before it
succeeded and the loop of `seedUsers` built `users`. -/
theorem seedDatabase_success (cfg : Config) (env : Env) (w : World)
    (hall : ∀ op, env.outcome op = none) :
    ∃ users w₂, seedUsersLoop env (env.bcryptHash "password123" 10) cfg.NUM_USERS 0 [] =
        .ok users ∧ users.length = cfg.NUM_USERS ∧
      w₂.users = storeUsers w.nextId users ∧ w₂.reports = [] ∧
      w₂.nextId = w.nextId + users.length ∧
      w₂.trace = w.trace ++ [.log "🚀 Starting database seeding process...",
        .call .connect, .log "✅ MongoDB Connected...", .log "🧹 Clearing existing data...",
        .call .deleteUsers, .call .deleteReports, .log "✅ Data cleared.",
        .call (.hash "password123" 10), .call (.insertUsers users),
        .log ("🌱 Seeded " ++ toString users.length ++ " users.")] ∧
      seedDatabase cfg env w =
        match seedReports cfg env w₂ with
        | (w₃, .returned ()) =>
          ({ w₃ with trace := w₃.trace ++
              [.log "🎉 Database seeding completed successfully!", .call .disconnect,
                .log "👋 MongoDB Disconnected."] }, .returned ())
        | (w₃, .thrown e) =>
          ({ w₃ with trace := w₃.trace ++
              [.errorWith "❌ An error occurred during seeding:" e, .call .disconnect,
                .log "👋 MongoDB Disconnected."] }, .returned ())
        | (w₃, .exited code) => (w₃, .exited code) := by
  obtain ⟨users, hloop, hlen, hsu⟩ := seedUsers_success cfg env hall
  refine ⟨users,
    { users := storeUsers w.nextId users
      reports := []
      nextId := w.nextId + users.length
      trace := w.trace ++ [.log "🚀 Starting database seeding process...",
        .call .connect, .log "✅ MongoDB Connected...", .log "🧹 Clearing existing data...",
        .call .deleteUsers, .call .deleteReports, .log "✅ Data cleared.",
        .call (.hash "password123" 10), .call (.insertUsers users),
        .log ("🌱 Seeded " ++ toString users.length ++ " users.")] },
    hloop, hlen, rfl, rfl, rfl, rfl, ?_⟩
  simp only [seedDatabase, connectDB, guardedRegion, finallyBlock, hall, hsu, emit,
    List.append_assoc, List.singleton_append, List.cons_append, List.nil_append]
  rcases seedReports cfg env _ with ⟨w₃, r⟩
  cases r with
  | returned u => cases u; simp
  | thrown e => simp
  | exited code => rfl

/-- The whole run when every outside call succeeds: the users built by the
loop are stored in a cleared collection; with at most five users no citizen
is found and no report is inserted, with more than five users the reports
built by the loop are stored in a cleared collection. -/
theorem seedDatabase_all_succeed (cfg : Config) (env : Env) (w : World)
    (hall : ∀ op, env.outcome op = none) :
    ∃ users, seedUsersLoop env (env.bcryptHash "password123" 10) cfg.NUM_USERS 0 [] =
        .ok users ∧ users.length = cfg.NUM_USERS ∧
      ((storeUsers w.nextId users).filter (fun u => u.role == "Analyst")).length =
        min cfg.NUM_USERS 5 ∧
      ((storeUsers w.nextId users).filter (fun u => u.role == "Citizen")).length =
        cfg.NUM_USERS - min cfg.NUM_USERS 5 ∧
      ((cfg.NUM_USERS ≤ 5 ∧
        seedDatabase cfg env w =
          ({ users := storeUsers w.nextId users
             reports := []
             nextId := w.nextId + users.length
             trace := w.trace ++ [.log "🚀 Starting database seeding process...",
              .call .connect, .log "✅ MongoDB Connected...",
              .log "🧹 Clearing existing data...",
              .call .deleteUsers, .call .deleteReports, .log "✅ Data cleared.",
              .call (.hash "password123" 10), .call (.insertUsers users),
              .log ("🌱 Seeded " ++ toString users.length ++ " users."),
              .call (.findUsers "Citizen"), .call (.findUsers "Analyst"),
              .error "❌ Cannot seed reports: No citizen users found.",
              .log "🎉 Database seeding completed successfully!", .call .disconnect,
              .log "👋 MongoDB Disconnected."] }, .returned ())) ∨
       (5 < cfg.NUM_USERS ∧
        ∃ reports,
          seedReportsLoop env
            ((storeUsers w.nextId users).filter (fun u => u.role == "Citizen"))
            ((storeUsers w.nextId users).filter (fun u => u.role == "Analyst"))
            cfg.NUM_REPORTS 0 [] = .ok reports ∧
          reports.length = cfg.NUM_REPORTS ∧
          seedDatabase cfg env w =
            ({ users := storeUsers w.nextId users
               reports := storeReports (w.nextId + users.length) reports
               nextId := w.nextId + users.length + reports.length
               trace := w.trace ++ [.log "🚀 Starting database seeding process...",
                .call .connect, .log "✅ MongoDB Connected...",
                .log "🧹 Clearing existing data...",
                .call .deleteUsers, .call .deleteReports, .log "✅ Data cleared.",
                .call (.hash "password123" 10), .call (.insertUsers users),
                .log ("🌱 Seeded " ++ toString users.length ++ " users."),
                .call (.findUsers "Citizen"), .call (.findUsers "Analyst"),
                .call (.insertReports reports),
                .log ("🌱 Seeded " ++ toString reports.length ++ " reports."),
                .log "🎉 Database seeding completed successfully!", .call .disconnect,
                .log "👋 MongoDB Disconnected."] }, .returned ()))) := by
  obtain ⟨users, w₂, hloop, hlen, hu₂, hr₂, hn₂, ht₂, hrun⟩ :=
    seedDatabase_success cfg env w hall
  have hroles := seedUsersLoop_roles env _ cfg.NUM_USERS users hloop
  obtain ⟨hcA, hcC⟩ := threshold_role_counts cfg.NUM_USERS
  have hA : (findUsers w₂ "Analyst").length = min cfg.NUM_USERS 5 := by
    rw [findUsers_length, hu₂, storeUsers_roles, hroles, hcA]
  have hC : (findUsers w₂ "Citizen").length = cfg.NUM_USERS - min cfg.NUM_USERS 5 := by
    rw [findUsers_length, hu₂, storeUsers_roles, hroles, hcC]
  have hfA : findUsers w₂ "Analyst" =
      (storeUsers w.nextId users).filter (fun u => u.role == "Analyst") := by
    rw [findUsers, hu₂]
  have hfC : findUsers w₂ "Citizen" =
      (storeUsers w.nextId users).filter (fun u => u.role == "Citizen") := by
    rw [findUsers, hu₂]
  refine ⟨users, hloop, hlen, hfA ▸ hA, hfC ▸ hC, ?_⟩
  by_cases h5 : cfg.NUM_USERS ≤ 5
  · left
    refine ⟨h5, ?_⟩
    have hc0 : (findUsers w₂ "Citizen").length = 0 := by rw [hC]; omega
    rw [hrun, seedReports_no_citizen cfg env w₂ (hall _) (hall _) hc0]
    simp [hu₂, hr₂, hn₂, ht₂]
  · right
    refine ⟨by omega, ?_⟩
    have hpos : 0 < (findUsers w₂ "Citizen").length := by rw [hC]; omega
    obtain ⟨reports, hrl, hrlen, -, hsr⟩ :=
      seedReports_run cfg env w₂ (hall _) (hall _) hpos
    rw [hall] at hsr
    refine ⟨reports, by rw [← hfC, ← hfA]; exact hrl, hrlen, ?_⟩
    rw [hrun, hsr]
    simp [hu₂, hr₂, hn₂, ht₂]

/-! ## Roles and phone numbers of generated users -/

/-- C1: for every batch size `N` and every index `i < N`, the loop of
`seedUsers` returns `N` records and the one at index `i` has role `Analyst`
exactly when `i < 5` and role `Citizen` otherwise; every record built has one
of these two roles. -/
theorem seedUsers_role_by_index (env : Env) (hashedPassword : String) (N i : Nat)
    (h : i < N) :
    ∃ users u, seedUsersLoop env hashedPassword N 0 [] = .ok users ∧
      users.length = N ∧ users[i]? = some u ∧
      (u.role = "Analyst" ↔ i < 5) ∧ (¬ i < 5 → u.role = "Citizen") ∧
      ∀ v ∈ users, v.role = "Analyst" ∨ v.role = "Citizen" := by
  obtain ⟨built, hbuilt, hlen, hget⟩ := seedUsersLoop_ok env hashedPassword N 0 []
  obtain ⟨u, hu, hbu⟩ := hget i h
  obtain ⟨u', hu', hrole, -⟩ := buildUser_ok (env.userDraws (0 + i)) hashedPassword (0 + i)
  rw [hbu] at hu'
  simp only [Except.ok.injEq] at hu'
  subst hu'
  simp only [Nat.zero_add] at hrole
  refine ⟨built, u, by simpa using hbuilt, hlen, hu, ?_, ?_, ?_⟩
  · by_cases h5 : i < 5
    · simp [hrole, h5]
    · simp only [hrole, h5, if_false, iff_false]; decide
  · intro h5
    simp [hrole, h5]
  · intro v hv
    obtain ⟨j, hj, hvj⟩ := List.getElem_of_mem hv
    obtain ⟨v', hv', hbv⟩ := hget j (by omega)
    obtain ⟨v'', hv'', hrole', -⟩ :=
      buildUser_ok (env.userDraws (0 + j)) hashedPassword (0 + j)
    rw [hbv] at hv''
    simp only [Except.ok.injEq] at hv''
    subst hv''
    have hvv : v = v' := by
      rw [List.getElem?_eq_getElem hj, hvj] at hv'
      exact Option.some.inj hv'
    subst hvv
    rw [hrole']
    by_cases h5 : 0 + j < 5
    · left; simp only [h5, if_true]
    · right; simp only [h5, if_false]

/-- Witness for C1: a batch of seven users, index five. -/
theorem seedUsers_role_by_index_witness :
    ∃ users u, seedUsersLoop sampleEnv "h" 7 0 [] = .ok users ∧
      users.length = 7 ∧ users[5]? = some u ∧
      (u.role = "Analyst" ↔ 5 < 5) ∧ (¬ 5 < 5 → u.role = "Citizen") ∧
      ∀ v ∈ users, v.role = "Analyst" ∨ v.role = "Citizen" :=
  seedUsers_role_by_index sampleEnv "h" 7 5 (by decide)

/-- C3, as stated, fails: with the default count of one user the record built
has role `Analyst`, which is not `Citizen`. -/
theorem default_user_is_not_citizen :
    ∃ users u, seedUsersLoop sampleEnv "h" defaultConfig.NUM_USERS 0 [] = .ok users ∧
      u ∈ users ∧ u.role = "Analyst" ∧ u.role ≠ "Citizen" := by
  obtain ⟨built, hbuilt, -, hget⟩ :=
    seedUsersLoop_ok sampleEnv "h" defaultConfig.NUM_USERS 0 []
  obtain ⟨u, hu, hbu⟩ := hget 0 (by decide)
  obtain ⟨u', hu', hrole, -⟩ := buildUser_ok (sampleEnv.userDraws (0 + 0)) "h" (0 + 0)
  rw [hbu] at hu'
  simp only [Except.ok.injEq] at hu'
  subst hu'
  have hA : u.role = "Analyst" := by rw [hrole]; rfl
  refine ⟨built, u, by simpa using hbuilt, List.getElem?_mem hu, hA, ?_⟩
  rw [hA]; decide

/-- C3, amended: with the default count of one user, the loop of `seedUsers`
builds exactly one record and every record built has role `Analyst`. -/
theorem default_users_are_analysts (env : Env) (hashedPassword : String) :
    ∃ users, seedUsersLoop env hashedPassword defaultConfig.NUM_USERS 0 [] = .ok users ∧
      users.length = 1 ∧ ∀ u ∈ users, u.role = "Analyst" := by
  obtain ⟨built, hbuilt, hlen, -⟩ :=
    seedUsersLoop_ok env hashedPassword defaultConfig.NUM_USERS 0 []
  have hroles := seedUsersLoop_roles env hashedPassword defaultConfig.NUM_USERS _ hbuilt
  refine ⟨built, by simpa using hbuilt, hlen, ?_⟩
  intro u hu
  have hmem : u.role ∈ ([] ++ built).map (fun (v : UserRecord) => v.role) :=
    List.mem_map_of_mem _ (by simpa using hu)
  rw [hroles] at hmem
  simpa [defaultConfig, List.range_succ] using hmem

/-- Witness for C3 amended: the sample environment. -/
theorem default_users_are_analysts_witness :
    ∃ users, seedUsersLoop sampleEnv "h" defaultConfig.NUM_USERS 0 [] = .ok users ∧
      users.length = 1 ∧ ∀ u ∈ users, u.role = "Analyst" :=
  default_users_are_analysts sampleEnv "h"

/-- C9: for every batch size and index, when the numeric-string generator
returns nine decimal digits, the phone of the record built has length ten,
starts with one of `6`, `7`, `8`, `9` and continues with nine decimal
digits. -/
theorem seedUsers_phone_format (env : Env) (hashedPassword : String) (N i : Nat)
    (h : i < N)
    (hlen : ((env.userDraws i).numeric 9).length = 9)
    (hdigits : ∀ c ∈ ((env.userDraws i).numeric 9).data, c.isDigit = true) :
    ∃ users u, seedUsersLoop env hashedPassword N 0 [] = .ok users ∧
      users[i]? = some u ∧ u.phone.length = 10 ∧
      ∃ c rest, u.phone.data = c :: rest ∧ c ∈ ['6', '7', '8', '9'] ∧
        rest.length = 9 ∧ ∀ x ∈ rest, x.isDigit = true := by
  obtain ⟨built, hbuilt, -, hget⟩ := seedUsersLoop_ok env hashedPassword N 0 []
  obtain ⟨u, hu, hbu⟩ := hget i h
  obtain ⟨u', hu', -, head, hhead, hphone⟩ :=
    buildUser_ok (env.userDraws (0 + i)) hashedPassword (0 + i)
  rw [hbu] at hu'
  simp only [Except.ok.injEq] at hu'
  subst hu'
  simp only [Nat.zero_add] at hphone
  have hdata : ((env.userDraws i).numeric 9).data.length = 9 := hlen
  refine ⟨built, u, by simpa using hbuilt, hu, ?_, ?_⟩
  · have hhl : head.length = 1 := by
      simp only [List.mem_cons, List.mem_singleton, List.not_mem_nil, or_false] at hhead
      rcases hhead with rfl | rfl | rfl | rfl <;> rfl
    rw [hphone, String.length_append, hhl, hlen]
  · simp only [List.mem_cons, List.mem_singleton, List.not_mem_nil, or_false] at hhead
    rcases hhead with rfl | rfl | rfl | rfl
    · exact ⟨'9', _, by rw [hphone, String.data_append]; rfl, by simp, hdata, hdigits⟩
    · exact ⟨'8', _, by rw [hphone, String.data_append]; rfl, by simp, hdata, hdigits⟩
    · exact ⟨'7', _, by rw [hphone, String.data_append]; rfl, by simp, hdata, hdigits⟩
    · exact ⟨'6', _, by rw [hphone, String.data_append]; rfl, by simp, hdata, hdigits⟩

/-- Witness for C9: the sample environment draws nine times the digit 4. -/
theorem seedUsers_phone_format_witness :
    (((sampleEnv.userDraws 0).numeric 9).length = 9 ∧
      ∀ c ∈ ((sampleEnv.userDraws 0).numeric 9).data, c.isDigit = true) ∧
    ∃ users u, seedUsersLoop sampleEnv "h" 1 0 [] = .ok users ∧
      users[0]? = some u ∧ u.phone.length = 10 ∧
      ∃ c rest, u.phone.data = c :: rest ∧ c ∈ ['6', '7', '8', '9'] ∧
        rest.length = 9 ∧ ∀ x ∈ rest, x.isDigit = true :=
  ⟨⟨by decide, by decide⟩,
    seedUsers_phone_format sampleEnv "h" 1 0 (by decide) (by decide) (by decide)⟩

/-! ## References held by generated reports -/

/-- C4: in every world (so for every result of the two queries), every report
that `seedReports` passes to the bulk insert has `submittedBy` equal to the
`_id` of a user returned by the Citizen query; when both queries return and
the Citizen result is empty, `seedReports` logs the error and returns, with
no further call and the collections unchanged; when the Citizen result is not
empty the bulk insert is called with `NUM_REPORTS` reports. -/
theorem seedReports_submittedBy_citizen (cfg : Config) (env : Env) (w : World) :
    ∃ new, (seedReports cfg env w).1.trace = w.trace ++ new ∧
      (∀ reports, Event.call (.insertReports reports) ∈ new →
        ∀ r ∈ reports, ∃ c ∈ findUsers w "Citizen", r.submittedBy = c._id) ∧
      (env.outcome (.findUsers "Citizen") = none →
        env.outcome (.findUsers "Analyst") = none →
        ((findUsers w "Citizen").length = 0 →
          seedReports cfg env w =
            ({ w with trace := w.trace ++ [.call (.findUsers "Citizen"),
                .call (.findUsers "Analyst"),
                .error "❌ Cannot seed reports: No citizen users found."] },
              .returned ())) ∧
        (0 < (findUsers w "Citizen").length →
          ∃ reports, reports.length = cfg.NUM_REPORTS ∧
            Event.call (.insertReports reports) ∈ new)) := by
  cases hC : env.outcome (.findUsers "Citizen") with
  | some m =>
    refine ⟨[.call (.findUsers "Citizen")], ?_, ?_, ?_⟩
    · simp [seedReports, emit, hC]
    · intro reports hmem
      simp at hmem
    · intro h; simp at h
  | none =>
    cases hA : env.outcome (.findUsers "Analyst") with
    | some m =>
      refine ⟨[.call (.findUsers "Citizen"), .call (.findUsers "Analyst")], ?_, ?_, ?_⟩
      · simp [seedReports, emit, hC, hA]
      · intro reports hmem
        simp at hmem
      · intro _ h; simp at h
    | none =>
      by_cases hc : (findUsers w "Citizen").length = 0
      · have hrun : seedReports cfg env w =
            ({ w with trace := w.trace ++ [.call (.findUsers "Citizen"),
                .call (.findUsers "Analyst"),
                .error "❌ Cannot seed reports: No citizen users found."] },
              .returned ()) := by
          simp only [seedReports, emit, findUsers] at *
          simp [hC, hA, hc]
        refine ⟨[.call (.findUsers "Citizen"), .call (.findUsers "Analyst"),
          .error "❌ Cannot seed reports: No citizen users found."], ?_, ?_, ?_⟩
        · rw [hrun]
        · intro reports hmem
          simp at hmem
        · intro _ _
          exact ⟨fun _ => hrun, fun hpos => absurd hc (by omega)⟩
      · have hpos : 0 < (findUsers w "Citizen").length := by omega
        obtain ⟨reports, -, hlen, hall, hrun⟩ := seedReports_run cfg env w hC hA hpos
        have hsub : ∀ r ∈ reports, ∃ c ∈ findUsers w "Citizen", r.submittedBy = c._id := by
          intro r hr
          obtain ⟨j, hj⟩ := hall r hr
          obtain ⟨r', hr', hsub, -⟩ :=
            buildReport_ok (env.reportDraws j) (findUsers w "Citizen")
              (findUsers w "Analyst") hpos
          rw [hj] at hr'
          simp only [Except.ok.injEq] at hr'
          subst hr'
          exact hsub
        cases hI : env.outcome (.insertReports reports) with
        | some m =>
          rw [hI] at hrun
          refine ⟨[.call (.findUsers "Citizen"), .call (.findUsers "Analyst"),
            .call (.insertReports reports)], ?_, ?_, ?_⟩
          · rw [hrun]
          · intro reports' hmem
            simp at hmem
            subst hmem
            exact hsub
          · intro _ _
            exact ⟨fun h0 => absurd h0 hc, fun _ => ⟨reports, hlen, by simp⟩⟩
        | none =>
          rw [hI] at hrun
          refine ⟨[.call (.findUsers "Citizen"), .call (.findUsers "Analyst"),
            .call (.insertReports reports),
            .log ("🌱 Seeded " ++ toString reports.length ++ " reports.")], ?_, ?_, ?_⟩
          · rw [hrun]
          · intro reports' hmem
            simp at hmem
            subst hmem
            exact hsub
          · intro _ _
            exact ⟨fun h0 => absurd h0 hc, fun _ => ⟨reports, hlen, by simp⟩⟩

/-- Witness for C4: the sample world holds one citizen and one analyst and
every call succeeds. -/
theorem seedReports_submittedBy_citizen_witness :
    ∃ new, (seedReports defaultConfig sampleEnv sampleWorld).1.trace =
        sampleWorld.trace ++ new ∧
      (∀ reports, Event.call (.insertReports reports) ∈ new →
        ∀ r ∈ reports, ∃ c ∈ findUsers sampleWorld "Citizen", r.submittedBy = c._id) ∧
      (sampleEnv.outcome (.findUsers "Citizen") = none →
        sampleEnv.outcome (.findUsers "Analyst") = none →
        ((findUsers sampleWorld "Citizen").length = 0 →
          seedReports defaultConfig sampleEnv sampleWorld =
            ({ sampleWorld with trace := sampleWorld.trace ++ [.call (.findUsers "Citizen"),
                .call (.findUsers "Analyst"),
                .error "❌ Cannot seed reports: No citizen users found."] },
              .returned ())) ∧
        (0 < (findUsers sampleWorld "Citizen").length →
          ∃ reports, reports.length = defaultConfig.NUM_REPORTS ∧
            Event.call (.insertReports reports) ∈ new)) :=
  seedReports_submittedBy_citizen defaultConfig sampleEnv sampleWorld

/-- C5: for every array of citizens that is not empty, every array of
analysts and every batch size, the loop of `seedReports` returns that many
reports, and in each of them `verifiedBy` is non-null only if the status is
`Verified` and the array of analysts is not empty, is null in every other
case, and when non-null is the `_id` of one of the analysts. -/
theorem seedReports_verifiedBy (env : Env) (citizens analysts : List UserDoc) (M : Nat)
    (hc : 0 < citizens.length) :
    ∃ reports, seedReportsLoop env citizens analysts M 0 [] = .ok reports ∧
      reports.length = M ∧
      ∀ r ∈ reports,
        (r.verifiedBy ≠ none → r.status = "Verified" ∧ 0 < analysts.length) ∧
        (¬ (r.status = "Verified" ∧ 0 < analysts.length) → r.verifiedBy = none) ∧
        (∀ id, r.verifiedBy = some id → ∃ a ∈ analysts, a._id = id) := by
  obtain ⟨built, hbuilt, hlen, hall⟩ := seedReportsLoop_ok env citizens analysts hc M 0 []
  refine ⟨built, by simpa using hbuilt, hlen, ?_⟩
  intro r hr
  obtain ⟨j, hj⟩ := hall r hr
  obtain ⟨r', hr', -, hpos, hneg⟩ := buildReport_ok (env.reportDraws j) citizens analysts hc
  rw [hj] at hr'
  simp only [Except.ok.injEq] at hr'
  subst hr'
  by_cases hv : r.status = "Verified" ∧ analysts.length > 0
  · obtain ⟨a, ha, hva⟩ := hpos hv
    refine ⟨fun _ => hv, fun hn => absurd hv hn, ?_⟩
    intro id hid
    rw [hva] at hid
    exact ⟨a, ha, Option.some.inj hid⟩
  · have hnone := hneg hv
    refine ⟨fun hne => absurd hnone hne, fun _ => hnone, ?_⟩
    intro id hid
    rw [hnone] at hid
    cases hid

/-- Witness for C5: the citizen and the analyst of the sample world. -/
theorem seedReports_verifiedBy_witness :
    0 < [sampleUserDoc "Citizen" 1].length ∧
    ∃ reports, seedReportsLoop sampleEnv [sampleUserDoc "Citizen" 1]
        [sampleUserDoc "Analyst" 2] 5 0 [] = .ok reports ∧
      reports.length = 5 ∧
      ∀ r ∈ reports,
        (r.verifiedBy ≠ none → r.status = "Verified" ∧
          0 < [sampleUserDoc "Analyst" 2].length) ∧
        (¬ (r.status = "Verified" ∧ 0 < [sampleUserDoc "Analyst" 2].length) →
          r.verifiedBy = none) ∧
        (∀ id, r.verifiedBy = some id → ∃ a ∈ [sampleUserDoc "Analyst" 2], a._id = id) :=
  ⟨by decide, seedReports_verifiedBy sampleEnv [sampleUserDoc "Citizen" 1]
    [sampleUserDoc "Analyst" 2] 5 (by decide)⟩

/-! ## Connection life cycle -/

/-- C6: once `connectDB` has succeeded, whatever the outcome of each outside
call of the guarded region, the trace added by `seedDatabase` has the form
`before ++ [disconnect] ++ after` where `before` holds no call of
`mongoose.disconnect` and `after` holds no database call (one disconnect,
the last database action), nothing is called in `before` after a call that
threw, and the run ends as the disconnect call does: it returns when that
call succeeds, so the error of the guarded region is never re-thrown. -/
theorem seedDatabase_disconnects_once (cfg : Config) (env : Env) (w : World)
    (hconn : env.outcome .connect = none) :
    ∃ before after,
      (seedDatabase cfg env w).1.trace =
        w.trace ++ before ++ [Event.call .disconnect] ++ after ∧
      (∀ e ∈ before, e.isDisconnectCall = false) ∧
      (∀ e ∈ after, e.isDatabaseCall = false) ∧
      (∀ a op b, before = a ++ Event.call op :: b → env.outcome op ≠ none →
        ∀ e ∈ b, ∀ op', e ≠ Event.call op') ∧
      (seedDatabase cfg env w).2 =
        match env.outcome .disconnect with
        | none => .returned ()
        | some message => .thrown (.external .disconnect message) := by
  have hhead : Orderly env [.log "🚀 Starting database seeding process...",
      .call .connect, .log "✅ MongoDB Connected..."] (.returned ()) := by
    refine ⟨by simp [Event.isDisconnectCall, Op.isDisconnect], Or.inl ⟨rfl, ?_⟩⟩
    intro op hop
    simp at hop
    subst hop
    exact hconn
  obtain ⟨seg, hseg, hord⟩ := guardedRegion_orderly cfg env
    (emit (emit (emit w (.log "🚀 Starting database seeding process...")) (.call .connect))
      (.log "✅ MongoDB Connected..."))
  simp only [seedDatabase, connectDB, hconn]
  rcases hg : guardedRegion cfg env
    (emit (emit (emit w (.log "🚀 Starting database seeding process...")) (.call .connect))
      (.log "✅ MongoDB Connected...")) with ⟨w₂, r⟩
  rw [hg] at hseg hord
  simp only [emit, List.append_assoc, List.singleton_append] at hseg
  dsimp only at hseg hord ⊢
  cases r with
  | exited code =>
    rcases hord.2 with ⟨h, -⟩ | ⟨_, _, _, h, -⟩ <;> cases h
  | returned u =>
    cases u
    dsimp only
    obtain ⟨post, hpost, hpostdb, hres⟩ := finallyBlock_run env w₂
    have hall := hhead.append hord
    refine ⟨[.log "🚀 Starting database seeding process...", .call .connect,
      .log "✅ MongoDB Connected..."] ++ seg, post, ?_, hall.1, hpostdb, ?_, hres⟩
    · rw [hpost]
      simp [hseg]
    · intro a op b hsplit hop
      have htail : ∀ e ∈ ([] : List Event), ∀ op, e ≠ Event.call op :=
        fun e he => absurd he (List.not_mem_nil e)
      exact hall.quiet_after_throw htail a b op (by simpa using hsplit) hop
  | thrown err =>
    dsimp only
    obtain ⟨post, hpost, hpostdb, hres⟩ := finallyBlock_run env
      (emit w₂ (.errorWith "❌ An error occurred during seeding:" err))
    have hall := hhead.append hord
    refine ⟨([.log "🚀 Starting database seeding process...", .call .connect,
      .log "✅ MongoDB Connected..."] ++ seg) ++
        [.errorWith "❌ An error occurred during seeding:" err], post,
      ?_, ?_, hpostdb, ?_, hres⟩
    · rw [hpost]
      simp [emit, hseg]
    · intro e he
      rcases List.mem_append.mp he with he | he
      · exact hall.1 e he
      · simp at he
        subst he
        rfl
    · intro a op b hsplit hop
      exact hall.quiet_after_throw (fun e he => by simp at he; subst he; intro op; simp)
        a b op hsplit hop

/-- Witness for C6: the database is reached and the bulk insert of users is
rejected. -/
theorem seedDatabase_disconnects_once_witness :
    rejectingEnv.outcome .connect = none ∧
    ∃ before after,
      (seedDatabase defaultConfig rejectingEnv sampleWorld).1.trace =
        sampleWorld.trace ++ before ++ [Event.call .disconnect] ++ after ∧
      (∀ e ∈ before, e.isDisconnectCall = false) ∧
      (∀ e ∈ after, e.isDatabaseCall = false) ∧
      (∀ a op b, before = a ++ Event.call op :: b → rejectingEnv.outcome op ≠ none →
        ∀ e ∈ b, ∀ op', e ≠ Event.call op') ∧
      (seedDatabase defaultConfig rejectingEnv sampleWorld).2 =
        match rejectingEnv.outcome .disconnect with
        | none => .returned ()
        | some message => .thrown (.external .disconnect message) :=
  ⟨rfl, seedDatabase_disconnects_once defaultConfig rejectingEnv sampleWorld rfl⟩

/-- C8: when the connection attempt fails with message `m`, `seedDatabase`
logs the start line, calls `mongoose.connect`, logs the connection error and
exits with status 1; nothing else happens, so no delete, find or insert is
issued and both collections are as before. -/
theorem seedDatabase_unreachable (cfg : Config) (env : Env) (w : World) (m : String)
    (hconn : env.outcome .connect = some m) :
    seedDatabase cfg env w =
      ({ w with trace := w.trace ++ [.log "🚀 Starting database seeding process...",
          .call .connect, .error ("❌ MongoDB Connection Error: " ++ m), .exit 1] },
        .exited 1) ∧
    (seedDatabase cfg env w).1.users = w.users ∧
    (seedDatabase cfg env w).1.reports = w.reports ∧
    ∃ new, (seedDatabase cfg env w).1.trace = w.trace ++ new ∧
      ∀ e ∈ new, e.isCollectionCall = false := by
  have hrun : seedDatabase cfg env w =
      ({ w with trace := w.trace ++ [.log "🚀 Starting database seeding process...",
          .call .connect, .error ("❌ MongoDB Connection Error: " ++ m), .exit 1] },
        .exited 1) := by
    simp [seedDatabase, connectDB, emit, hconn]
  refine ⟨hrun, by rw [hrun], by rw [hrun], _, by rw [hrun], ?_⟩
  simp [Event.isCollectionCall, Op.isCollectionOp]

/-- Witness for C8: the connection is refused. -/
theorem seedDatabase_unreachable_witness :
    unreachableEnv.outcome .connect = some "connect ECONNREFUSED 127.0.0.1:27017" ∧
    (seedDatabase defaultConfig unreachableEnv sampleWorld).2 = .exited 1 ∧
    (seedDatabase defaultConfig unreachableEnv sampleWorld).1.users = sampleWorld.users ∧
    (seedDatabase defaultConfig unreachableEnv sampleWorld).1.reports =
      sampleWorld.reports :=
  have h := seedDatabase_unreachable defaultConfig unreachableEnv sampleWorld
    "connect ECONNREFUSED 127.0.0.1:27017" rfl
  ⟨rfl, by rw [h.1], h.2.1, h.2.2.1⟩

/-! ## Complete runs -/

/-- C2: with the default configuration, from every world and whenever every
outside call succeeds, after `seedDatabase` the users collection holds exactly
one document, of role `Analyst`, the reports collection is empty, the run
logged the error about missing citizens, called no bulk insert of reports and
returned. -/
theorem seedDatabase_default_run (env : Env) (w : World)
    (hall : ∀ op, env.outcome op = none) :
    ∃ u new, (seedDatabase defaultConfig env w).1.users = [u] ∧ u.role = "Analyst" ∧
      (seedDatabase defaultConfig env w).1.reports = [] ∧
      (seedDatabase defaultConfig env w).1.trace = w.trace ++ new ∧
      Event.error "❌ Cannot seed reports: No citizen users found." ∈ new ∧
      (∀ reports, Event.call (.insertReports reports) ∉ new) ∧
      (seedDatabase defaultConfig env w).2 = .returned () := by
  obtain ⟨users, hloop, hlen, hA, -, hcase⟩ := seedDatabase_all_succeed defaultConfig env w hall
  have hone : (storeUsers w.nextId users).length = 1 := by
    rw [storeUsers_length, hlen]; rfl
  obtain ⟨u, hu⟩ := List.length_eq_one.mp hone
  have hrole : u.role = "Analyst" := by
    have hroles := seedUsersLoop_roles env _ defaultConfig.NUM_USERS users hloop
    rw [← storeUsers_roles w.nextId, hu] at hroles
    simpa [defaultConfig, List.range_succ] using hroles
  rcases hcase with ⟨-, hrun⟩ | ⟨h5, -⟩
  · rw [hrun]
    refine ⟨u, _, hu, hrole, rfl, rfl, by simp, ?_, rfl⟩
    intro reports
    simp
  · exact absurd h5 (by decide)

/-- Witness for C2: the sample environment, a world with earlier documents. -/
theorem seedDatabase_default_run_witness :
    (∀ op, sampleEnv.outcome op = none) ∧
    ∃ u new, (seedDatabase defaultConfig sampleEnv sampleWorld).1.users = [u] ∧
      u.role = "Analyst" ∧
      (seedDatabase defaultConfig sampleEnv sampleWorld).1.reports = [] ∧
      (seedDatabase defaultConfig sampleEnv sampleWorld).1.trace = sampleWorld.trace ++ new ∧
      Event.error "❌ Cannot seed reports: No citizen users found." ∈ new ∧
      (∀ reports, Event.call (.insertReports reports) ∉ new) ∧
      (seedDatabase defaultConfig sampleEnv sampleWorld).2 = .returned () :=
  ⟨fun _ => rfl, seedDatabase_default_run sampleEnv sampleWorld (fun _ => rfl)⟩

/-- C7: from every world, when every outside call succeeds, after
`seedDatabase` the users collection is exactly the `NUM_USERS` records built
by the loop of `seedUsers`, stored under new identifiers, and the reports
collection is either empty or exactly the `NUM_REPORTS` records built by the
loop of `seedReports` from the stored users; when the identifiers of the
earlier documents are below the next identifier to hand out, no earlier
document is in either collection. -/
theorem seedDatabase_replaces_collections (cfg : Config) (env : Env) (w : World)
    (hall : ∀ op, env.outcome op = none) :
    ∃ users, seedUsersLoop env (env.bcryptHash "password123" 10) cfg.NUM_USERS 0 [] =
        .ok users ∧ users.length = cfg.NUM_USERS ∧
      (seedDatabase cfg env w).1.users = storeUsers w.nextId users ∧
      ((seedDatabase cfg env w).1.reports = [] ∨
        ∃ reports,
          seedReportsLoop env (findUsers (seedDatabase cfg env w).1 "Citizen")
            (findUsers (seedDatabase cfg env w).1 "Analyst") cfg.NUM_REPORTS 0 [] =
            .ok reports ∧
          reports.length = cfg.NUM_REPORTS ∧
          (seedDatabase cfg env w).1.reports =
            storeReports (w.nextId + cfg.NUM_USERS) reports) ∧
      ((∀ d ∈ w.users, d._id < w.nextId) →
        ∀ d ∈ w.users, d ∉ (seedDatabase cfg env w).1.users) ∧
      ((∀ d ∈ w.reports, d._id < w.nextId) →
        ∀ d ∈ w.reports, d ∉ (seedDatabase cfg env w).1.reports) := by
  obtain ⟨users, hloop, hlen, -, -, hcase⟩ := seedDatabase_all_succeed cfg env w hall
  have hfreshU : (∀ d ∈ w.users, d._id < w.nextId) →
      ∀ d ∈ w.users, d ∉ storeUsers w.nextId users := by
    intro hold d hd hmem
    have h1 := hold d hd
    have h2 := storeUsers_id_ge w.nextId users d hmem
    omega
  rcases hcase with ⟨-, hrun⟩ | ⟨-, reports, hrl, hrlen, hrun⟩
  · rw [hrun]
    exact ⟨users, hloop, hlen, rfl, Or.inl rfl, hfreshU, fun _ d _ hmem => by simp at hmem⟩
  · rw [hrun]
    refine ⟨users, hloop, hlen, rfl, Or.inr ⟨reports, hrl, hrlen, by rw [hlen]⟩, hfreshU, ?_⟩
    intro hold d hd hmem
    have h1 := hold d hd
    have h2 := storeReports_id_ge (w.nextId + users.length) reports d hmem
    omega

/-- Witness for C7: seven users and five reports over a world holding two
users and one report. -/
theorem seedDatabase_replaces_collections_witness :
    (∀ op, sampleEnv.outcome op = none) ∧
    (∀ d ∈ sampleWorld.users, d._id < sampleWorld.nextId) ∧
    (∀ d ∈ sampleWorld.reports, d._id < sampleWorld.nextId) ∧
    (∀ d ∈ sampleWorld.users,
      d ∉ (seedDatabase { NUM_USERS := 7, NUM_REPORTS := 5 } sampleEnv sampleWorld).1.users) ∧
    (∀ d ∈ sampleWorld.reports,
      d ∉ (seedDatabase { NUM_USERS := 7, NUM_REPORTS := 5 } sampleEnv
        sampleWorld).1.reports) :=
  have hU : ∀ d ∈ sampleWorld.users, d._id < sampleWorld.nextId := by decide
  have hR : ∀ d ∈ sampleWorld.reports, d._id < sampleWorld.nextId := by decide
  have h := seedDatabase_replaces_collections { NUM_USERS := 7, NUM_REPORTS := 5 }
    sampleEnv sampleWorld (fun _ => rfl)
  ⟨fun _ => rfl, hU, hR,
    h.choose_spec.2.2.2.2.1 hU, h.choose_spec.2.2.2.2.2 hR⟩

/-- C10: for every batch size `N` of users, from every world and when every
outside call succeeds, after `seedDatabase` the users collection holds
`min N 5` analysts and `N - min N 5` citizens; when `NUM_REPORTS` is positive
the reports collection holds `NUM_REPORTS` documents exactly when `5 < N`;
with `5 < N` the bulk insert of reports is called with `NUM_REPORTS` records;
with `N ≤ 5` the reports collection is empty and no bulk insert of reports is
called; in every case the completion line is logged, no error is caught and
the run returns. -/
theorem seedDatabase_role_split (cfg : Config) (env : Env) (w : World)
    (hall : ∀ op, env.outcome op = none) :
    (((seedDatabase cfg env w).1.users.filter (fun u => u.role == "Analyst")).length =
      min cfg.NUM_USERS 5) ∧
    (((seedDatabase cfg env w).1.users.filter (fun u => u.role == "Citizen")).length =
      cfg.NUM_USERS - min cfg.NUM_USERS 5) ∧
    (0 < cfg.NUM_REPORTS →
      ((seedDatabase cfg env w).1.reports.length = cfg.NUM_REPORTS ↔ 5 < cfg.NUM_USERS)) ∧
    ∃ new, (seedDatabase cfg env w).1.trace = w.trace ++ new ∧
      (5 < cfg.NUM_USERS →
        ∃ reports, reports.length = cfg.NUM_REPORTS ∧
          Event.call (.insertReports reports) ∈ new) ∧
      (cfg.NUM_USERS ≤ 5 →
        (seedDatabase cfg env w).1.reports = [] ∧
        ∀ reports, Event.call (.insertReports reports) ∉ new) ∧
      Event.log "🎉 Database seeding completed successfully!" ∈ new ∧
      (∀ msg e, Event.errorWith msg e ∉ new) ∧
      (seedDatabase cfg env w).2 = .returned () := by
  obtain ⟨users, -, -, hA, hC, hcase⟩ := seedDatabase_all_succeed cfg env w hall
  rcases hcase with ⟨h5, hrun⟩ | ⟨h5, reports, -, hrlen, hrun⟩
  · rw [hrun]
    refine ⟨hA, hC, ?_, _, rfl, ?_, ?_, by simp, ?_, rfl⟩
    · intro hM
      constructor
      · intro hlen
        simp at hlen
        omega
      · intro h
        omega
    · intro h
      omega
    · intro _
      refine ⟨rfl, ?_⟩
      intro reports
      simp
    · intro msg e
      simp
  · rw [hrun]
    refine ⟨hA, hC, ?_, _, rfl, ?_, ?_, by simp, ?_, rfl⟩
    · intro _
      constructor
      · intro _
        exact h5
      · intro _
        simp [storeReports_length, hrlen]
    · intro _
      exact ⟨reports, hrlen, by simp⟩
    · intro h
      omega
    · intro msg e
      simp

/-- Witness for C10: a batch of seven users, five reports. -/
theorem seedDatabase_role_split_witness :
    (∀ op, sampleEnv.outcome op = none) ∧
    (((seedDatabase { NUM_USERS := 7, NUM_REPORTS := 5 } sampleEnv
      sampleWorld).1.users.filter (fun u => u.role == "Analyst")).length = 5) ∧
    (((seedDatabase { NUM_USERS := 7, NUM_REPORTS := 5 } sampleEnv
      sampleWorld).1.users.filter (fun u => u.role == "Citizen")).length = 2) ∧
    (seedDatabase { NUM_USERS := 7, NUM_REPORTS := 5 } sampleEnv
      sampleWorld).1.reports.length = 5 :=
  have h := seedDatabase_role_split { NUM_USERS := 7, NUM_REPORTS := 5 } sampleEnv
    sampleWorld (fun _ => rfl)
  ⟨fun _ => rfl, h.1, h.2.1, (h.2.2.1 (by decide)).mpr (by decide)⟩

end Seed
